import Mathlib

/-!
Verification of the pixel-tracker analytics system: a shallow embedding of
the ingestion endpoint (`src/server.js`, `POST /api/events`) and of the
client-side delivery engine (`src/public/pixel.js` and the userscript
variants), together with theorems settling the specification claims.

Modelling conventions:
* JSON string fields that the handler tests for truthiness are plain
  `String`s where `""` stands for an absent or empty field (both are falsy
  in JavaScript and are treated identically by the code under study).
* Timestamps are naturals (milliseconds); the code passes ISO8601 strings
  through unchanged, so only their ordering matters here.
* The database is in-memory state: an append-only event list and an
  association list of session aggregates keyed by `session_id`
  (`ON CONFLICT (session_id)` makes the key unique).
* `500` responses (internal storage failures) are outside the model, as
  the claims quantify over executions without such failures.
-/

/-- An incoming event object from the JSON batch body.
`session_id`, `event_type`, `url` use `""` for a missing/empty field;
`referrer` and `metadata` may be genuinely absent (`none`). -/
structure InEvent where
  session_id : String
  event_type : String
  url : String
  referrer : Option String
  timestamp : Nat
  metadata : Option (List (String × String))
deriving DecidableEq, Repr

/-- A persisted row of the `events` table. -/
structure EventRow where
  session_id : String
  event_type : String
  url : String
  referrer : Option String
  timestamp : Nat
  metadata : List (String × String)
deriving DecidableEq, Repr

/-- A persisted row of the `sessions` table (sans the key column). -/
structure SessionRow where
  start_time : Nat
  end_time : Option Nat
  page_views : Int
  user_agent : Option String
deriving DecidableEq, Repr

/-- The database state touched by `POST /api/events`. -/
structure Db where
  events : List EventRow
  sessions : List (String × SessionRow)
deriving DecidableEq, Repr

def emptyDb : Db := ⟨[], []⟩

/-- Look a session up by `session_id`. -/
def getSession : List (String × SessionRow) → String → Option SessionRow
  | [], _ => none
  | (k, r) :: rest, sid => if k = sid then some r else getSession rest sid

/-- The session upsert issued per event:
`INSERT INTO sessions (session_id, start_time, page_views, user_agent)
 VALUES ($1,$2,$3,$4) ON CONFLICT (session_id) DO UPDATE SET
 end_time = EXCLUDED.start_time,
 page_views = sessions.page_views + EXCLUDED.page_views,
 user_agent = COALESCE(sessions.user_agent, EXCLUDED.user_agent)`. -/
def upsertSession (ua : Option String) (sid : String) (ts : Nat) (pv : Int) :
    List (String × SessionRow) → List (String × SessionRow)
  | [] => [(sid, ⟨ts, none, pv, ua⟩)]
  | (k, r) :: rest =>
      if k = sid then
        (k, ⟨r.start_time, some ts, r.page_views + pv, r.user_agent.orElse (fun _ => ua)⟩) :: rest
      else
        (k, r) :: upsertSession ua sid ts pv rest

/-- The row inserted into `events` for one incoming event: the validated
fields verbatim, `referrer || null` and `metadata || {}` for the rest. -/
def mkEventRow (e : InEvent) : EventRow :=
  ⟨e.session_id, e.event_type, e.url,
   match e.referrer with
   | some r => if r = "" then none else some r
   | none => none,
   e.timestamp, e.metadata.getD []⟩

/-- Per-event body of the ingestion loop (after validation): insert the
event row and upsert the session with `isPageview` as the increment. -/
def applyEvent (ua : Option String) (e : InEvent) (db : Db) : Db :=
  let pv : Int := if e.event_type = "pageview" then 1 else 0
  ⟨db.events ++ [mkEventRow e], upsertSession ua e.session_id e.timestamp pv db.sessions⟩

/-- The per-event validation `if (!session_id || !event_type || !url)`. -/
def validEvent (e : InEvent) : Bool :=
  ¬ e.session_id = "" ∧ ¬ e.event_type = "" ∧ ¬ e.url = ""

/-- The transactional loop over the batch: `none` models the `ROLLBACK`
taken on the first invalid event, `some db` a state ready to `COMMIT`. -/
def ingest (ua : Option String) : List InEvent → Db → Option Db
  | [], db => some db
  | e :: rest, db =>
      if validEvent e then ingest ua rest (applyEvent ua e db) else none

/-- The request body of `POST /api/events`: either not a JSON array, or an
array of event objects. -/
inductive Body where
  | nonArray
  | array (events : List InEvent)
deriving DecidableEq, Repr

/-- The observable response of `POST /api/events` (no storage failures):
`badRequest` is a 400, `ok n` is a 200 with `{count: n}`. -/
inductive Resp where
  | badRequest
  | ok (count : Nat)
deriving DecidableEq, Repr

/-- The `POST /api/events` handler from `src/server.js`. -/
def postEvents (ua : Option String) (body : Body) (db : Db) : Resp × Db :=
  match body with
  | .nonArray => (.badRequest, db)
  | .array events =>
      if events.length = 0 then (.badRequest, db)
      else if events.length > 100 then (.badRequest, db)
      else
        match ingest ua events db with
        | none => (.badRequest, db)
        | some db' => (.ok events.length, db')

/-- A sequence of requests, each carrying its `User-Agent` header and body,
run against the database in order. -/
def runRequests (reqs : List (Option String × Body)) (db : Db) : Db :=
  reqs.foldl (fun d r => (postEvents r.1 r.2 d).2) db

/-! ## Client-side delivery engine (`src/public/pixel.js`, userscript variants)

The pixel runs single-threaded; a flush's synchronous prefix (guard, set the
`isFlushing` latch, snapshot the queue, clear it) executes atomically before
the network await, and its completion (success or failure handler plus the
`finally` that clears the latch) executes atomically afterwards. `track`
calls may interleave between the two phases, so the flush is modelled as a
start transition and a completion transition on an explicit state. -/

/-- `CONFIG.maxQueueSize`. -/
def maxQueueSize : Nat := 50

/-- `CONFIG.maxRetries`. -/
def maxRetries : Nat := 3

/-- `CONFIG.retryDelay` in milliseconds. -/
def retryDelay : Nat := 1000

/-- Client tracker state: the live queue, the in-flight snapshot
(`eventsToSend`, empty when no flush is in flight), the `isFlushing` latch,
the `retryCount`, and the durable fallback store
(`localStorage['pixel_failed_events']` / GM storage). -/
structure PixelState where
  queue : List EventRow
  inFlight : List EventRow
  isFlushing : Bool
  retryCount : Nat
  failedStore : List EventRow
deriving DecidableEq, Repr

/-- JavaScript `arr.slice(-n)`: the at-most-`n` most recent elements. -/
def sliceLast (n : Nat) (l : List EventRow) : List EventRow :=
  l.drop (l.length - n)

/-- The synchronous prefix of `flush`: return unchanged if the queue is
empty or a flush is already in flight; otherwise set the latch, snapshot
the queue and clear it. -/
def flushStart (s : PixelState) : PixelState :=
  if s.queue.length = 0 ∨ s.isFlushing then s
  else { s with isFlushing := true, inFlight := s.queue, queue := [] }

/-- Completion of an in-flight flush whose POST succeeded: reset the retry
counter, discard the snapshot, clear the latch. -/
def flushSuccess (s : PixelState) : PixelState :=
  { s with retryCount := 0, inFlight := [], isFlushing := false }

/-- Completion of an in-flight flush whose POST failed. Non-synchronous
with retries remaining: increment `retryCount`, re-queue the snapshot at
the front of the live queue, and schedule a retry after
`retryDelay * retryCount` (the second component; the `finally` clears the
latch even on this early-returning path). Otherwise: spill the snapshot to
the fallback store, keeping only the last 100 entries (`slice(-100)`), and
schedule nothing. -/
def flushFailure (sync : Bool) (s : PixelState) : PixelState × Option Nat :=
  if ¬ sync ∧ s.retryCount < maxRetries then
    ({ s with retryCount := s.retryCount + 1,
              queue := s.inFlight ++ s.queue,
              inFlight := [], isFlushing := false },
     some (retryDelay * (s.retryCount + 1)))
  else
    ({ s with failedStore := sliceLast 100 (s.failedStore ++ s.inFlight),
              inFlight := [], isFlushing := false },
     none)

/-- A whole flush attempt whose network request fails (start followed by
the failure handler), as exercised by the retry-exhaustion scenario. -/
def flushFail (sync : Bool) (s : PixelState) : PixelState × Option Nat :=
  if s.queue.length = 0 ∨ s.isFlushing then (s, none)
  else flushFailure sync (flushStart s)

/-- `track`: if the queue holds at least `maxQueueSize` events, call
`flush()` first — only its synchronous prefix runs before control returns —
then append the freshly built event to the live queue. -/
def track (e : EventRow) (s : PixelState) : PixelState :=
  let s1 := if s.queue.length ≥ maxQueueSize then flushStart s else s
  { s1 with queue := s1.queue ++ [e] }

/-- `recoverFailedEvents` (userscript variant with the deferred flush):
read the fallback store; if non-empty, clear it, push its contents onto the
live queue, and schedule a flush after 1000ms (the second component). -/
def recoverFailedEvents (s : PixelState) : PixelState × Option Nat :=
  if s.failedStore.isEmpty then (s, none)
  else ({ s with queue := s.queue ++ s.failedStore, failedStore := [] }, some 1000)

/-! ## Session manager (`getOrCreateSession`, userscript variant) -/

/-- `CONFIG.sessionTimeout`: 30 minutes in milliseconds. -/
def sessionTimeout : Nat := 30 * 60 * 1000

/-- The persisted client session record (`pixel_session_data`). -/
structure SessionData where
  sessionId : String
  created : Nat
  lastActivity : Nat
deriving DecidableEq, Repr

/-- Digit character of a base-36 rendering (`0-9a-z`). -/
def base36Char (n : Nat) : Char :=
  if n < 10 then Char.ofNat (48 + n) else Char.ofNat (87 + n)

/-- Digits of `n` in base 36, most significant first (`n.toString(36)`). -/
def base36Digits (n : Nat) : List Char :=
  if _h : n < 36 then [base36Char n]
  else base36Digits (n / 36) ++ [base36Char (n % 36)]
decreasing_by exact Nat.div_lt_self (by omega) (by omega)

/-- JavaScript `n.toString(36)` for a natural number. -/
def natToBase36 (n : Nat) : String := ⟨base36Digits n⟩

/-- `generateId`: `Math.random().toString(36).substr(2, 9) +
Date.now().toString(36)`. `randDigits` stands for the fractional digits of
the base-36 rendering of the random draw (the part after `"0."`, all
base-36 digit characters); `substr(2, 9)` takes the first nine of them. -/
def generateId (randDigits : List Char) (now : Nat) : String :=
  String.mk (randDigits.take 9) ++ natToBase36 now

/-- `getOrCreateSession`: reuse a stored record whose `lastActivity` is
within `sessionTimeout` of `now` (refreshing `lastActivity`); otherwise
mint, persist and return a fresh `"sess_"`-prefixed id. `stored = none`
covers both a missing record and one that failed to parse. Returns the id
together with the record written back to storage. -/
def getOrCreateSession (now : Nat) (randDigits : List Char)
    (stored : Option SessionData) : String × SessionData :=
  match stored with
  | some d =>
      if now - d.lastActivity < sessionTimeout then
        (d.sessionId, { d with lastActivity := now })
      else
        let sid := "sess_" ++ generateId randDigits now
        (sid, ⟨sid, now, now⟩)
  | none =>
      let sid := "sess_" ++ generateId randDigits now
      (sid, ⟨sid, now, now⟩)

/-! ## Sample data used by witnesses and counterexamples -/

def evA : EventRow := ⟨"s1", "pageview", "http://a", none, 1, []⟩

def evB : EventRow := ⟨"s1", "click", "http://b", none, 2, []⟩

def evC : EventRow := ⟨"s1", "custom", "http://c", none, 3, []⟩

/-! ## The ingestion endpoint: response and rollback behaviour (C1) -/

/-- The conditions under which `POST /api/events` answers 400: body not an
array, empty array, more than 100 entries, or an event failing the
required-field validation. -/
def invalidBatch : Body → Bool
  | .nonArray => true
  | .array evs => evs.isEmpty || decide (evs.length > 100) || evs.any (fun e => ! validEvent e)

theorem ingest_eq_none_iff (ua : Option String) (evs : List InEvent) (db : Db) :
    ingest ua evs db = none ↔ evs.any (fun e => ! validEvent e) = true := by
  induction evs generalizing db with
  | nil => simp [ingest]
  | cons e rest ih =>
      by_cases h : validEvent e = true <;>
        simp [ingest, h, ih, Bool.not_eq_true] at *

/-- **C1.** The response of `POST /api/events` is 400 exactly when the body
is not an array, is empty, exceeds 100 entries, or contains an event
missing a non-empty `session_id`, `event_type` or `url`; a 400 leaves the
database untouched (full rollback); and every batch of 1–100 valid events
yields a 200 whose `count` is the batch size. -/
theorem postEvents_response_spec (ua : Option String) (db : Db) (body : Body) :
    ((postEvents ua body db).1 = Resp.badRequest ↔ invalidBatch body = true) ∧
    ((postEvents ua body db).1 = Resp.badRequest → (postEvents ua body db).2 = db) ∧
    (∀ evs, body = Body.array evs → 1 ≤ evs.length → evs.length ≤ 100 →
      (∀ e ∈ evs, validEvent e = true) →
      (postEvents ua body db).1 = Resp.ok evs.length) := by
  refine ⟨?_, ?_, ?_⟩
  · cases body with
    | nonArray => simp [postEvents, invalidBatch]
    | array evs =>
        by_cases h0 : evs.length = 0
        · have he : evs = [] := List.length_eq_zero.mp h0
          subst he
          simp [postEvents, invalidBatch]
        · by_cases h100 : evs.length > 100
          · simp [postEvents, invalidBatch, h0, h100]
          · cases hI : ingest ua evs db with
            | none =>
                have hany := (ingest_eq_none_iff ua evs db).mp hI
                simp [postEvents, invalidBatch, h0, h100, hI, hany]
            | some db' =>
                have hany : ¬ (evs.any (fun e => ! validEvent e) = true) := by
                  intro hc
                  rw [(ingest_eq_none_iff ua evs db).mpr hc] at hI
                  exact Option.noConfusion hI
                have hne : ¬ evs = [] := fun he => h0 (by simp [he])
                simp [postEvents, invalidBatch, h0, h100, hI, hany,
                      List.isEmpty_iff, hne]
  · cases body with
    | nonArray => intro _; rfl
    | array evs =>
        by_cases h0 : evs.length = 0
        · simp [postEvents, h0]
        · by_cases h100 : evs.length > 100
          · simp [postEvents, h0, h100]
          · cases hI : ingest ua evs db with
            | none => simp [postEvents, h0, h100, hI]
            | some db' => simp [postEvents, h0, h100, hI]
  · intro evs hb h1 h100 hvalid
    subst hb
    have h0 : ¬ evs.length = 0 := by omega
    have h100' : ¬ evs.length > 100 := by omega
    cases hI : ingest ua evs db with
    | none =>
        exfalso
        have hany := (ingest_eq_none_iff ua evs db).mp hI
        obtain ⟨e, hmem, hne⟩ := List.any_eq_true.mp hany
        have := hvalid e hmem
        simp [this] at hne
    | some db' => simp [postEvents, h0, h100', hI]

/-- Witness for C1: a concrete one-event valid batch is accepted with
`count = 1`. -/
theorem postEvents_response_spec_witness :
    (postEvents (some "UA")
      (Body.array [⟨"s1", "pageview", "http://a", none, 1, none⟩]) emptyDb).1 =
      Resp.ok 1 :=
  (postEvents_response_spec (some "UA") emptyDb _).2.2
    [⟨"s1", "pageview", "http://a", none, 1, none⟩] rfl (by decide) (by decide) (by decide)

/-! ## Delivery-engine retry and overflow behaviour (C2, C3, C5, C7) -/

theorem track_flushing (e : EventRow) (s : PixelState) (h : s.isFlushing = true) :
    track e s = { s with queue := s.queue ++ [e] } := by
  unfold track flushStart
  simp [h]

theorem foldl_track_flushing (ts : List EventRow) (s : PixelState)
    (h : s.isFlushing = true) :
    ts.foldl (fun st e => track e st) s = { s with queue := s.queue ++ ts } := by
  induction ts generalizing s with
  | nil => simp
  | cons e rest ih =>
      rw [List.foldl_cons, track_flushing e s h,
        ih { s with queue := s.queue ++ [e] } h]
      simp

/-- **C2.** A non-synchronous flush failure with the retry counter below 3
re-queues the failed snapshot at the front of the live queue — ahead of
every event tracked while the flush was in flight — increments the retry
counter, and schedules a retry after `retryDelay` times the new attempt
number (1s, 2s, 3s for attempts 1, 2, 3). -/
theorem flush_retry_requeues_front (s : PixelState) (tracked : List EventRow)
    (hq : s.queue ≠ []) (hfl : s.isFlushing = false) (hrc : s.retryCount < 3) :
    flushFailure false
        (tracked.foldl (fun st e => track e st) (flushStart s)) =
      ({ queue := s.queue ++ tracked, inFlight := [], isFlushing := false,
         retryCount := s.retryCount + 1, failedStore := s.failedStore },
       some (retryDelay * (s.retryCount + 1))) := by
  have h0 : ¬ (s.queue.length = 0) := by
    simp [List.length_eq_zero, hq]
  have hstart : flushStart s =
      { s with isFlushing := true, inFlight := s.queue, queue := [] } := by
    unfold flushStart
    simp [h0, hfl]
  rw [hstart, foldl_track_flushing _ _ rfl]
  unfold flushFailure
  simp [maxRetries, hrc]

/-- Witness for C2: one concrete failed flush with one event tracked while
in flight; the snapshot returns ahead of it and the first retry is
scheduled after 1000ms. -/
theorem flush_retry_requeues_front_witness :
    flushFailure false
        ([evB].foldl (fun st e => track e st)
          (flushStart ⟨[evA], [], false, 0, []⟩)) =
      (⟨[evA, evB], [], false, 1, []⟩, some 1000) :=
  flush_retry_requeues_front ⟨[evA], [], false, 0, []⟩ [evB]
    (by decide) rfl (by decide)

theorem flushFail_retry (s : PixelState) (hq : s.queue ≠ [])
    (hfl : s.isFlushing = false) (hrc : s.retryCount < maxRetries) :
    flushFail false s =
      (⟨s.queue, [], false, s.retryCount + 1, s.failedStore⟩,
       some (retryDelay * (s.retryCount + 1))) := by
  have h0 : ¬ (s.queue.length = 0) := by
    simp [List.length_eq_zero, hq]
  unfold flushFail flushStart flushFailure
  simp [h0, hfl, hrc]

theorem flushFail_spill (sync : Bool) (s : PixelState) (hq : s.queue ≠ [])
    (hfl : s.isFlushing = false)
    (hx : sync = true ∨ maxRetries ≤ s.retryCount) :
    flushFail sync s =
      (⟨[], [], false, s.retryCount,
        sliceLast 100 (s.failedStore ++ s.queue)⟩, none) := by
  have h0 : ¬ (s.queue.length = 0) := by
    simp [List.length_eq_zero, hq]
  unfold flushFail flushStart flushFailure
  rcases hx with hx | hx
  · subst hx
    simp [h0, hfl]
  · have : ¬ s.retryCount < maxRetries := by omega
    simp [h0, hfl, this]

/-- Counterexample for C3 as stated: after exactly 3 consecutive network
failures (retry counter 0 → 3), the batch is still in the live queue, the
fallback store is still empty, and a further retry is scheduled after
3000ms — it has not been written to fallback storage. -/
theorem three_failures_still_retried_cex :
    flushFail false
        ((flushFail false ((flushFail false
          (⟨[evA], [], false, 0, []⟩ : PixelState)).1)).1) =
      (⟨[evA], [], false, 3, []⟩, some 3000) := by decide

/-- **C3 (amended).** A batch spills to the durable fallback store only
once the initial attempt and all 3 retries have failed — i.e. on the 4th
consecutive network failure — or on any synchronous flush failure: the
snapshot is appended to the fallback store capped at the most recent 100
events (oldest dropped first), removed from the live queue, and no further
retry is scheduled. -/
theorem retry_exhaustion_spills_to_fallback (B F : List EventRow) (hB : B ≠ []) :
    ((flushFail false ((flushFail false ((flushFail false ((flushFail false
        (⟨B, [], false, 0, F⟩ : PixelState)).1)).1)).1)) =
      (⟨[], [], false, 3, sliceLast 100 (F ++ B)⟩, none)) ∧
    (∀ s : PixelState, s.queue ≠ [] → s.isFlushing = false →
      flushFail true s =
        (⟨[], [], false, s.retryCount,
          sliceLast 100 (s.failedStore ++ s.queue)⟩, none)) := by
  constructor
  · have h1 : flushFail false (⟨B, [], false, 0, F⟩ : PixelState) =
        ((⟨B, [], false, 1, F⟩ : PixelState), some 1000) :=
      flushFail_retry _ hB rfl (by simp [maxRetries])
    have h2 : flushFail false (⟨B, [], false, 1, F⟩ : PixelState) =
        ((⟨B, [], false, 2, F⟩ : PixelState), some 2000) :=
      flushFail_retry _ hB rfl (by simp [maxRetries])
    have h3 : flushFail false (⟨B, [], false, 2, F⟩ : PixelState) =
        ((⟨B, [], false, 3, F⟩ : PixelState), some 3000) :=
      flushFail_retry _ hB rfl (by simp [maxRetries])
    have h4 : flushFail false (⟨B, [], false, 3, F⟩ : PixelState) =
        ((⟨[], [], false, 3, sliceLast 100 (F ++ B)⟩ : PixelState), none) :=
      flushFail_spill false _ hB rfl (Or.inr (by simp [maxRetries]))
    rw [h1, h2, h3, h4]
  · intro s hq hfl
    exact flushFail_spill true s hq hfl (Or.inl rfl)

/-- Witness for C3: a concrete batch of one event spills to the fallback
store on the 4th consecutive failure. -/
theorem retry_exhaustion_spills_to_fallback_witness :
    flushFail false ((flushFail false ((flushFail false ((flushFail false
        (⟨[evA], [], false, 0, []⟩ : PixelState)).1)).1)).1) =
      (⟨[], [], false, 3, sliceLast 100 ([] ++ [evA])⟩, none) :=
  (retry_exhaustion_spills_to_fallback [evA] [] (by decide)).1

set_option maxRecDepth 4000 in
/-- Counterexample for C5 as stated: a state with a flush already in
flight is reachable (start a flush of one event, then track 50 events
while it is in flight); `track` of a 51st event calls `flush()`, but the
in-flight latch makes it a no-op, so the triggering event is appended to
the existing 50-element live queue instead of landing in a fresh
post-snapshot queue. -/
theorem track_overflow_inflight_cex :
    (((List.replicate 50 evB).foldl (fun st e => track e st)
        (flushStart ⟨[evA], [], false, 0, []⟩)).queue.length = 50) ∧
    (track evC ((List.replicate 50 evB).foldl (fun st e => track e st)
        (flushStart ⟨[evA], [], false, 0, []⟩))).queue ≠ [evC] ∧
    (track evC ((List.replicate 50 evB).foldl (fun st e => track e st)
        (flushStart ⟨[evA], [], false, 0, []⟩))).queue =
      List.replicate 50 evB ++ [evC] ∧
    (track evC ((List.replicate 50 evB).foldl (fun st e => track e st)
        (flushStart ⟨[evA], [], false, 0, []⟩))).inFlight = [evA] := by
  refine ⟨?_, ?_, ?_, ?_⟩ <;> decide

/-- **C5 (amended).** When no flush is already in flight, a `track` call
finding at least 50 events in the live queue forces an immediate flush
first — snapshotting the whole queue into the in-flight batch — and then
appends the triggering event, which therefore lands alone in the fresh
post-snapshot queue. (With a flush already in flight, the forced `flush()`
is a no-op and the event is appended to the existing live queue.) -/
theorem track_overflow_flushes_before_append (s : PixelState) (e : EventRow)
    (hfl : s.isFlushing = false) (hq : maxQueueSize ≤ s.queue.length) :
    track e s = { s with isFlushing := true, inFlight := s.queue, queue := [e] } := by
  have h0 : ¬ (s.queue.length = 0) := by
    have : (0 : Nat) < maxQueueSize := by simp [maxQueueSize]
    omega
  unfold track flushStart
  simp [hfl, h0, hq]

/-- Witness for C5: a 50-element queue with no flush in flight; tracking
one more event snapshots all 50 and leaves only the new event queued. -/
theorem track_overflow_flushes_before_append_witness :
    track evC ⟨List.replicate 50 evA, [], false, 0, []⟩ =
      ⟨[evC], List.replicate 50 evA, true, 0, []⟩ :=
  track_overflow_flushes_before_append ⟨List.replicate 50 evA, [], false, 0, []⟩
    evC rfl (by decide)

/-- Counterexample for C7 as stated: recovering one stored event `evB`
with `evA` already queued yields the queue `[evA, evB]` — the recovered
event is appended behind the queued one, not prepended ahead of it. -/
theorem recover_append_not_prepend_cex :
    (recoverFailedEvents ⟨[evA], [], false, 0, [evB]⟩).1.queue = [evA, evB] ∧
    (recoverFailedEvents ⟨[evA], [], false, 0, [evB]⟩).1.queue ≠ [evB, evA] := by
  refine ⟨?_, ?_⟩ <;> decide

/-- **C7 (amended).** On initialization, `recoverFailedEvents` reads the
durable failed-events store and, when it is non-empty, clears it, appends
its contents to the end of the live queue — behind any events already
queued — and schedules a flush after a 1-second delay. -/
theorem recoverFailedEvents_appends_and_schedules (s : PixelState)
    (h : s.failedStore ≠ []) :
    recoverFailedEvents s =
      ({ s with queue := s.queue ++ s.failedStore, failedStore := [] }, some 1000) := by
  unfold recoverFailedEvents
  simp [List.isEmpty_iff, h]

/-- Witness for C7: one stored event is appended behind the queued event,
the store is cleared, and a flush is scheduled after 1000ms. -/
theorem recoverFailedEvents_appends_and_schedules_witness :
    recoverFailedEvents ⟨[evA], [], false, 0, [evB]⟩ =
      (⟨[evA, evB], [], false, 0, []⟩, some 1000) :=
  recoverFailedEvents_appends_and_schedules ⟨[evA], [], false, 0, [evB]⟩ (by decide)

/-! ## Session manager (C6) -/

/-- **C6.** `getOrCreateSession`: a stored record with `lastActivity` less
than 30 minutes old is reused — `lastActivity` is refreshed to `now` and
the existing id returned; with no (parseable) record, or one 30 minutes or
older, a fresh id `"sess_" ++ <9 chars of base-36 randomness> ++
<base-36 of now>` is minted, persisted (with `created = lastActivity =
now`) and returned. The random digits come from
`Math.random().toString(36)`, whose fractional digits are base-36 digit
characters; `substr(2, 9)` takes nine of them. -/
theorem getOrCreateSession_spec (now : Nat) (randDigits : List Char)
    (stored : Option SessionData) :
    (∀ d, stored = some d → now - d.lastActivity < sessionTimeout →
      getOrCreateSession now randDigits stored =
        (d.sessionId, { d with lastActivity := now })) ∧
    (∀ d, stored = some d → sessionTimeout ≤ now - d.lastActivity →
      getOrCreateSession now randDigits stored =
        ("sess_" ++ generateId randDigits now,
         ⟨"sess_" ++ generateId randDigits now, now, now⟩)) ∧
    (stored = none →
      getOrCreateSession now randDigits stored =
        ("sess_" ++ generateId randDigits now,
         ⟨"sess_" ++ generateId randDigits now, now, now⟩)) ∧
    (generateId randDigits now = ⟨randDigits.take 9⟩ ++ natToBase36 now) ∧
    (9 ≤ randDigits.length → (randDigits.take 9).length = 9) := by
  refine ⟨?_, ?_, ?_, rfl, ?_⟩
  · intro d hd hfresh
    subst hd
    simp [getOrCreateSession, hfresh]
  · intro d hd hstale
    subst hd
    have : ¬ (now - d.lastActivity < sessionTimeout) := by omega
    simp [getOrCreateSession, this]
  · intro hd
    subst hd
    simp [getOrCreateSession]
  · intro h
    simp [List.length_take]
    omega

/-- Witness for C6: a record 1ms old is reused with refreshed activity;
the same call with a stale record mints the advertised fresh id. -/
theorem getOrCreateSession_spec_witness :
    (getOrCreateSession 100 ['a', 'b', 'c', 'd', 'e', 'f', 'g', 'h', 'i', 'j']
        (some ⟨"sess_old", 0, 99⟩) = ("sess_old", ⟨"sess_old", 0, 100⟩)) ∧
    (getOrCreateSession 1800100 ['a', 'b', 'c', 'd', 'e', 'f', 'g', 'h', 'i', 'j']
        (some ⟨"sess_old", 0, 100⟩) =
      ("sess_" ++ generateId ['a', 'b', 'c', 'd', 'e', 'f', 'g', 'h', 'i', 'j'] 1800100,
       ⟨"sess_" ++ generateId ['a', 'b', 'c', 'd', 'e', 'f', 'g', 'h', 'i', 'j'] 1800100,
        1800100, 1800100⟩)) :=
  ⟨(getOrCreateSession_spec 100 _ _).1 ⟨"sess_old", 0, 99⟩ rfl (by decide),
   (getOrCreateSession_spec 1800100 _ _).2.1 ⟨"sess_old", 0, 100⟩ rfl (by decide)⟩

/-! ## Session-aggregate invariants (C4, C8, C9) -/

/-- The ingested events of a session, in ingestion order (`events` is
append-only). -/
def sessEvents (sid : String) (db : Db) : List EventRow :=
  db.events.filter (fun ev => ev.session_id == sid)

/-- How many `pageview` events a session has ingested. -/
def pvCount (sid : String) (db : Db) : Nat :=
  ((sessEvents sid db).filter (fun ev => ev.event_type == "pageview")).length

/-- The ingested timestamps of a session, in ingestion order. -/
def sessTimestamps (sid : String) (db : Db) : List Nat :=
  (sessEvents sid db).map (fun ev => ev.timestamp)

/-- The inductive invariant tying each session row to the events ingested
for its id: rows exist exactly for ids with events; `start_time` is the
first ingested timestamp, `end_time` (when set) the last, and
`page_views` counts the ingested `pageview` events. -/
def SessionInv (db : Db) : Prop :=
  ∀ sid : String,
    (getSession db.sessions sid = none → sessEvents sid db = []) ∧
    (∀ row, getSession db.sessions sid = some row →
      (∃ e0, (sessEvents sid db).head? = some e0 ∧ row.start_time = e0.timestamp) ∧
      (row.end_time = none ∨
        ∃ eL, (sessEvents sid db).getLast? = some eL ∧ row.end_time = some eL.timestamp) ∧
      row.page_views = (pvCount sid db : Int))

theorem getSession_upsert_self (ua : Option String) (sid : String) (ts : Nat)
    (pv : Int) (ss : List (String × SessionRow)) :
    getSession (upsertSession ua sid ts pv ss) sid =
      some (match getSession ss sid with
            | none => ⟨ts, none, pv, ua⟩
            | some r =>
                ⟨r.start_time, some ts, r.page_views + pv,
                 r.user_agent.orElse (fun _ => ua)⟩) := by
  induction ss with
  | nil => simp [upsertSession, getSession]
  | cons kr rest ih =>
      obtain ⟨k, r⟩ := kr
      by_cases h : k = sid <;> simp [upsertSession, getSession, h, ih]

theorem getSession_upsert_other (ua : Option String) (sid sid' : String)
    (ts : Nat) (pv : Int) (ss : List (String × SessionRow)) (h : sid ≠ sid') :
    getSession (upsertSession ua sid ts pv ss) sid' = getSession ss sid' := by
  induction ss with
  | nil => simp [upsertSession, getSession, h]
  | cons kr rest ih =>
      obtain ⟨k, r⟩ := kr
      by_cases hk : k = sid
      · subst hk
        simp [upsertSession, getSession, h]
      · simp [upsertSession, getSession, hk, ih]

theorem sessEvents_applyEvent (ua : Option String) (e : InEvent) (db : Db)
    (sid : String) :
    sessEvents sid (applyEvent ua e db) =
      sessEvents sid db ++ (if e.session_id = sid then [mkEventRow e] else []) := by
  by_cases h : e.session_id = sid <;>
    simp [sessEvents, applyEvent, List.filter_append, mkEventRow, h]

theorem pvCount_applyEvent (ua : Option String) (e : InEvent) (db : Db)
    (sid : String) :
    pvCount sid (applyEvent ua e db) =
      pvCount sid db +
        (if e.session_id = sid ∧ e.event_type = "pageview" then 1 else 0) := by
  by_cases h1 : e.session_id = sid <;> by_cases h2 : e.event_type = "pageview" <;>
    simp [pvCount, sessEvents_applyEvent, List.filter_append, mkEventRow, h1, h2]

theorem sessionInv_applyEvent (ua : Option String) (e : InEvent) (db : Db)
    (h : SessionInv db) : SessionInv (applyEvent ua e db) := by
  have hup : (applyEvent ua e db).sessions =
      upsertSession ua e.session_id e.timestamp
        (if e.event_type = "pageview" then 1 else 0) db.sessions := rfl
  intro sid
  by_cases hs : e.session_id = sid
  · subst hs
    constructor
    · intro hn
      rw [hup, getSession_upsert_self] at hn
      exact Option.noConfusion hn
    · intro row hrow
      rw [hup, getSession_upsert_self] at hrow
      have hrow' := Option.some.inj hrow
      cases hold : getSession db.sessions e.session_id with
      | none =>
          rw [hold] at hrow'
          have hemp : sessEvents e.session_id db = [] := (h e.session_id).1 hold
          subst hrow'
          refine ⟨⟨mkEventRow e, ?_, rfl⟩, Or.inl rfl, ?_⟩
          · rw [sessEvents_applyEvent]
            simp [hemp]
          · rw [pvCount_applyEvent]
            have hemp0 : pvCount e.session_id db = 0 := by simp [pvCount, hemp]
            by_cases hpv : e.event_type = "pageview" <;> simp [hemp0, hpv]
      | some r =>
          rw [hold] at hrow'
          obtain ⟨⟨e0, he0, hst⟩, _hend, hpv⟩ := (h e.session_id).2 r hold
          subst hrow'
          refine ⟨⟨e0, ?_, hst⟩, Or.inr ⟨mkEventRow e, ?_, rfl⟩, ?_⟩
          · rw [sessEvents_applyEvent]
            cases hse : sessEvents e.session_id db with
            | nil => rw [hse] at he0; exact absurd he0 (by simp)
            | cons a t =>
                rw [hse] at he0
                simp at he0
                simp [he0]
          · rw [sessEvents_applyEvent]
            simp [List.getLast?_concat]
          · rw [pvCount_applyEvent]
            by_cases hp : e.event_type = "pageview" <;> simp [hp, hpv]
  · have hget : getSession (applyEvent ua e db).sessions sid =
        getSession db.sessions sid := by
      rw [hup, getSession_upsert_other _ _ _ _ _ _ hs]
    have hsev : sessEvents sid (applyEvent ua e db) = sessEvents sid db := by
      rw [sessEvents_applyEvent]
      simp [hs]
    have hpvc : pvCount sid (applyEvent ua e db) = pvCount sid db := by
      simp [pvCount, hsev]
    rw [hget, hsev, hpvc]
    exact h sid

theorem sessionInv_ingest (ua : Option String) (evs : List InEvent) :
    ∀ db db', ingest ua evs db = some db' → SessionInv db → SessionInv db' := by
  induction evs with
  | nil =>
      intro db db' hI h
      simp [ingest] at hI
      exact hI ▸ h
  | cons e rest ih =>
      intro db db' hI h
      by_cases hv : validEvent e = true
      · rw [ingest, if_pos hv] at hI
        exact ih _ _ hI (sessionInv_applyEvent ua e db h)
      · rw [ingest, if_neg hv] at hI
        exact Option.noConfusion hI

theorem sessionInv_postEvents (ua : Option String) (body : Body) (db : Db)
    (h : SessionInv db) : SessionInv (postEvents ua body db).2 := by
  cases body with
  | nonArray => exact h
  | array evs =>
      by_cases h0 : evs.length = 0
      · simp [postEvents, h0]
        exact h
      · by_cases h100 : evs.length > 100
        · simp [postEvents, h0, h100]
          exact h
        · cases hI : ingest ua evs db with
          | none =>
              simp [postEvents, h0, h100, hI]
              exact h
          | some db' =>
              simp [postEvents, h0, h100, hI]
              exact sessionInv_ingest ua evs db db' hI h

theorem sessionInv_emptyDb : SessionInv emptyDb := by
  intro sid
  refine ⟨fun _ => rfl, fun row hrow => ?_⟩
  simp [getSession, emptyDb] at hrow

theorem sessionInv_runRequests (reqs : List (Option String × Body)) :
    ∀ db, SessionInv db → SessionInv (runRequests reqs db) := by
  induction reqs with
  | nil => intro db h; exact h
  | cons r rest ih =>
      intro db h
      exact ih _ (sessionInv_postEvents r.1 r.2 db h)

/-- **C4.** For every sequence of requests run from an empty store, the
`page_views` of any stored session row equals the number of events with
`event_type = "pageview"` ingested for that `session_id` across all
successful batches: the upsert adds `1` per `pageview` event and `0`
otherwise, starting from the lazily created row. -/
theorem page_views_counts_pageviews (reqs : List (Option String × Body))
    (sid : String) (row : SessionRow)
    (h : getSession (runRequests reqs emptyDb).sessions sid = some row) :
    row.page_views = (pvCount sid (runRequests reqs emptyDb) : Int) :=
  ((sessionInv_runRequests reqs emptyDb sessionInv_emptyDb sid).2 row h).2.2

/-- Witness for C4: one batch with one `pageview` and one `click` yields a
session row whose `page_views` equals the stored `pageview` count (1). -/
theorem page_views_counts_pageviews_witness :
    (⟨5, some 6, 1, some "UA"⟩ : SessionRow).page_views =
      (pvCount "s1" (runRequests
        [(some "UA", Body.array
          [⟨"s1", "pageview", "http://a", none, 5, none⟩,
           ⟨"s1", "click", "http://a", none, 6, none⟩])] emptyDb) : Int) :=
  page_views_counts_pageviews _ "s1" _ (by decide)

/-- Counterexample for C9 as stated: the server never validates client
timestamps, so ingesting a `pageview` at `t = 100` and then one at
`t = 50` yields a reachable session row with `end_time = 50` strictly
below `start_time = 100`. -/
theorem end_time_lt_start_time_cex :
    getSession (runRequests
      [(none, Body.array [⟨"s1", "pageview", "http://a", none, 100, none⟩]),
       (none, Body.array [⟨"s1", "pageview", "http://a", none, 50, none⟩])]
      emptyDb).sessions "s1" = some ⟨100, some 50, 2, none⟩ ∧
    ¬ ((100 : Nat) ≤ 50) := by
  exact ⟨by decide, by decide⟩

/-- **C9 (amended).** For every session row reachable through successful
ingestions, `page_views ≥ 0`; and `end_time ≥ start_time` holds whenever
the ingested timestamps of that session are non-decreasing in ingestion
order (the server copies client timestamps without validating their
order, so the bound cannot hold unconditionally). -/
theorem session_row_invariants (reqs : List (Option String × Body))
    (sid : String) (row : SessionRow)
    (h : getSession (runRequests reqs emptyDb).sessions sid = some row) :
    0 ≤ row.page_views ∧
    (List.Sorted (· ≤ ·) (sessTimestamps sid (runRequests reqs emptyDb)) →
      ∀ t, row.end_time = some t → row.start_time ≤ t) := by
  obtain ⟨⟨e0, he0, hst⟩, hend, hpv⟩ :=
    (sessionInv_runRequests reqs emptyDb sessionInv_emptyDb sid).2 row h
  constructor
  · rw [hpv]
    exact Int.natCast_nonneg _
  · intro hsorted t ht
    rcases hend with hnone | ⟨eL, hL, hLt⟩
    · rw [hnone] at ht
      exact Option.noConfusion ht
    · rw [hLt] at ht
      obtain rfl := Option.some.inj ht
      rw [hst]
      cases hc : sessEvents sid (runRequests reqs emptyDb) with
      | nil =>
          rw [hc] at he0
          exact absurd he0 (by simp)
      | cons a rest =>
          rw [hc] at he0 hL
          simp only [List.head?_cons, Option.some.injEq] at he0
          have hcons : sessTimestamps sid (runRequests reqs emptyDb) =
              a.timestamp :: rest.map (fun ev => ev.timestamp) := by
            simp [sessTimestamps, hc]
          rw [hcons] at hsorted
          have hmem : eL ∈ a :: rest :=
            List.mem_of_mem_getLast? (Option.mem_def.mpr hL)
          rcases List.mem_cons.mp hmem with hmem | hmem
          · subst hmem
            rw [← he0]
          · have := List.rel_of_sorted_cons hsorted eL.timestamp
              (List.mem_map_of_mem (fun ev => ev.timestamp) hmem)
            rw [← he0]
            exact this

/-- Witness for C9: a session ingested with non-decreasing timestamps
(10 then 20) has `page_views ≥ 0` and `start_time ≤ end_time`. -/
theorem session_row_invariants_witness :
    0 ≤ (⟨10, some 20, 2, none⟩ : SessionRow).page_views ∧ (10 : Nat) ≤ 20 :=
  ⟨(session_row_invariants
      [(none, Body.array [⟨"s1", "pageview", "http://a", none, 10, none⟩]),
       (none, Body.array [⟨"s1", "pageview", "http://a", none, 20, none⟩])]
      "s1" ⟨10, some 20, 2, none⟩ (by decide)).1,
   (session_row_invariants
      [(none, Body.array [⟨"s1", "pageview", "http://a", none, 10, none⟩]),
       (none, Body.array [⟨"s1", "pageview", "http://a", none, 20, none⟩])]
      "s1" ⟨10, some 20, 2, none⟩ (by decide)).2 (by decide) 20 rfl⟩

theorem ua_preserved_applyEvent (ua' : Option String) (e : InEvent) (db : Db)
    (sid : String) (row : SessionRow) (u : String)
    (h : getSession db.sessions sid = some row) (hu : row.user_agent = some u) :
    ∃ row', getSession (applyEvent ua' e db).sessions sid = some row' ∧
      row'.user_agent = some u := by
  have hup : (applyEvent ua' e db).sessions =
      upsertSession ua' e.session_id e.timestamp
        (if e.event_type = "pageview" then 1 else 0) db.sessions := rfl
  by_cases hs : e.session_id = sid
  · subst hs
    refine ⟨_, by rw [hup, getSession_upsert_self], ?_⟩
    rw [h]
    simp [hu, Option.orElse]
  · exact ⟨row, by rw [hup, getSession_upsert_other _ _ _ _ _ _ hs]; exact h, hu⟩

theorem ua_preserved_ingest (ua' : Option String) (evs : List InEvent) :
    ∀ db db' (sid : String) (row : SessionRow) (u : String),
      ingest ua' evs db = some db' →
      getSession db.sessions sid = some row → row.user_agent = some u →
      ∃ row', getSession db'.sessions sid = some row' ∧
        row'.user_agent = some u := by
  induction evs with
  | nil =>
      intro db db' sid row u hI h hu
      simp [ingest] at hI
      exact hI ▸ ⟨row, h, hu⟩
  | cons e rest ih =>
      intro db db' sid row u hI h hu
      by_cases hv : validEvent e = true
      · rw [ingest, if_pos hv] at hI
        obtain ⟨row1, h1, hu1⟩ := ua_preserved_applyEvent ua' e db sid row u h hu
        exact ih _ _ sid row1 u hI h1 hu1
      · rw [ingest, if_neg hv] at hI
        exact Option.noConfusion hI

theorem ua_preserved_postEvents (ua' : Option String) (body : Body) (db : Db)
    (sid : String) (row : SessionRow) (u : String)
    (h : getSession db.sessions sid = some row) (hu : row.user_agent = some u) :
    ∃ row', getSession (postEvents ua' body db).2.sessions sid = some row' ∧
      row'.user_agent = some u := by
  cases body with
  | nonArray => exact ⟨row, h, hu⟩
  | array evs =>
      by_cases h0 : evs.length = 0
      · simp [postEvents, h0]
        exact ⟨row, h, hu⟩
      · by_cases h100 : evs.length > 100
        · simp [postEvents, h0, h100]
          exact ⟨row, h, hu⟩
        · cases hI : ingest ua' evs db with
          | none =>
              simp [postEvents, h0, h100, hI]
              exact ⟨row, h, hu⟩
          | some db' =>
              simp [postEvents, h0, h100, hI]
              exact ua_preserved_ingest ua' evs db db' sid row u hI h hu

/-- **C8.** Once a session row carries a non-null `user_agent`, no later
request changes it, whatever `User-Agent` headers and bodies the requests
carry: the upsert writes `COALESCE(sessions.user_agent,
EXCLUDED.user_agent)`, so a set value absorbs every later one
(first-write-wins). -/
theorem user_agent_first_write_wins (db : Db) (sid : String)
    (row : SessionRow) (u : String)
    (h : getSession db.sessions sid = some row) (hu : row.user_agent = some u)
    (reqs : List (Option String × Body)) :
    ∃ row', getSession (runRequests reqs db).sessions sid = some row' ∧
      row'.user_agent = some u := by
  induction reqs generalizing db row with
  | nil => exact ⟨row, h, hu⟩
  | cons r rest ih =>
      obtain ⟨row1, h1, hu1⟩ := ua_preserved_postEvents r.1 r.2 db sid row u h hu
      exact ih _ _ h1 hu1

/-- Witness for C8: a session whose `user_agent` is `"UA0"` keeps it
through a later request carrying header `"UA1"`. -/
theorem user_agent_first_write_wins_witness :
    ∃ row', getSession (runRequests
        [(some "UA1", Body.array [⟨"s1", "pageview", "http://a", none, 9, none⟩])]
        ⟨[], [("s1", ⟨1, none, 1, some "UA0"⟩)]⟩).sessions "s1" = some row' ∧
      row'.user_agent = some "UA0" :=
  user_agent_first_write_wins ⟨[], [("s1", ⟨1, none, 1, some "UA0"⟩)]⟩
    "s1" ⟨1, none, 1, some "UA0"⟩ "UA0" (by decide) rfl _

/-! ## Absence of an event-type enum check (C10) -/

/-- **C10.** `POST /api/events` never compares `event_type` against the
enum `{pageview, click, custom}`: any event with non-empty `session_id`,
`event_type` and `url` is accepted (200, counted) and its `event_type`
persisted verbatim; a missing `referrer` is stored as null and missing
`metadata` as the empty mapping; and the session aggregate depends on
`event_type` only through the equality test with `"pageview"`. -/
theorem event_type_not_enum_checked (ua : Option String) (db : Db) (e : InEvent)
    (hs : ¬ e.session_id = "") (ht : ¬ e.event_type = "") (hu : ¬ e.url = "") :
    postEvents ua (Body.array [e]) db = (Resp.ok 1, applyEvent ua e db) ∧
    (applyEvent ua e db).events = db.events ++ [mkEventRow e] ∧
    (mkEventRow e).event_type = e.event_type ∧
    (e.referrer = none → (mkEventRow e).referrer = none) ∧
    (e.metadata = none → (mkEventRow e).metadata = []) ∧
    (∀ ty₁ ty₂ : String, ((ty₁ = "pageview") ↔ (ty₂ = "pageview")) →
      (applyEvent ua { e with event_type := ty₁ } db).sessions =
        (applyEvent ua { e with event_type := ty₂ } db).sessions) := by
  refine ⟨?_, rfl, rfl, ?_, ?_, ?_⟩
  · have hv : validEvent e = true := by
      simp [validEvent, hs, ht, hu]
    simp [postEvents, ingest, hv]
  · intro h
    simp [mkEventRow, h]
  · intro h
    simp [mkEventRow, h]
  · intro ty₁ ty₂ hiff
    by_cases h1 : ty₁ = "pageview"
    · simp [applyEvent, h1, hiff.mp h1]
    · have h2 : ¬ ty₂ = "pageview" := fun hc => h1 (hiff.mpr hc)
      simp [applyEvent, h1, h2]

/-- Witness for C10: an event with the out-of-enum type `"weird_type"` is
accepted and applied. -/
theorem event_type_not_enum_checked_witness :
    postEvents (some "UA")
        (Body.array [⟨"s1", "weird_type", "http://a", none, 7, none⟩]) emptyDb =
      (Resp.ok 1,
       applyEvent (some "UA") ⟨"s1", "weird_type", "http://a", none, 7, none⟩ emptyDb) :=
  (event_type_not_enum_checked (some "UA") emptyDb _
    (by decide) (by decide) (by decide)).1
